import Mathlib

set_option maxRecDepth 8192
set_option exponentiation.threshold 2048

/-!
Shallow embedding of `src/main.ts` (a GitHub Action wrapping the Abacus
counter HTTP API), together with proofs checking the natural-language
specification against it.

Conventions of the embedding:
* JavaScript strings are Lean `String`s; all strings appearing in the
  claims are ASCII, where JS UTF-16 length and Lean codepoint length agree.
* `fetch` is modelled by an oracle: a list of scripted per-attempt
  outcomes (a response, or a thrown transport error).
* `sleep` is modelled by recording the requested duration in a trace.
* Thrown JS `Error`s are modelled by `Except String` / explicit outcome
  constructors carrying the message.
-/

/-! ## Constants (main.ts lines 15-17) -/

def BASE_URL : String := "https://abacus.jasoncameron.dev"

def MAX_ATTEMPTS : Nat := 5

def MAX_LOG_BODY_CHARS : Nat := 2000

/-! ## Operations (main.ts lines 3-13, 52-58) -/

inductive Operation
  | hit
  | create
  | get
  | info
  | set
  | update
  | reset
  | delete
deriving DecidableEq, Repr

inductive HttpMethod
  | GET
  | POST
deriving DecidableEq, Repr

/-- The string spelling of each member of the closed `Operation` union. -/
def Operation.toStr : Operation → String
  | .hit => "hit"
  | .create => "create"
  | .get => "get"
  | .info => "info"
  | .set => "set"
  | .update => "update"
  | .reset => "reset"
  | .delete => "delete"

/-- At runtime the TypeScript cast `operationRaw as Operation` performs no
check; this function expresses which strings actually belong to the closed
enumeration. -/
def parseOperation (s : String) : Option Operation :=
  if s = "hit" then some .hit
  else if s = "create" then some .create
  else if s = "get" then some .get
  else if s = "info" then some .info
  else if s = "set" then some .set
  else if s = "update" then some .update
  else if s = "reset" then some .reset
  else if s = "delete" then some .delete
  else none

/-- `isAdminOp` (main.ts line 52), on the runtime string (the `Operation`
type is erased at runtime, so the comparisons are string comparisons). -/
def isAdminOpStr (op : String) : Bool :=
  op == "set" || op == "update" || op == "reset" || op == "delete"

/-- `isAdminOp` restricted to the closed enumeration. -/
def isAdminOp (op : Operation) : Bool :=
  isAdminOpStr op.toStr

/-- `methodFor` (main.ts line 56) on the runtime string. -/
def methodForStr (op : String) : HttpMethod :=
  if isAdminOpStr op then .POST else .GET

/-- `methodFor` restricted to the closed enumeration. -/
def methodFor (op : Operation) : HttpMethod :=
  methodForStr op.toStr

/-! ## Input validation (main.ts lines 19-50) -/

/-- One character of the Abacus name character class `[A-Za-z0-9_.-]`. -/
def nameChar (c : Char) : Bool :=
  c.isAlphanum || c == '_' || c == '.' || c == '-'

/-- `NAME_RE.test value` for `NAME_RE = ^[A-Za-z0-9_.-]{3,64}$`
(main.ts line 20): between 3 and 64 characters, all from the class.  All
characters of the class are ASCII, so JS UTF-16 length and Lean codepoint
length agree on every accepted string. -/
def validName (value : String) : Bool :=
  3 ≤ value.data.length && value.data.length ≤ 64 && value.data.all nameChar

/-- JS `String.prototype.trim`: strip leading and trailing whitespace. -/
def jsTrim (s : String) : String :=
  String.mk (((s.data.dropWhile Char.isWhitespace).reverse.dropWhile Char.isWhitespace).reverse)

/-- `requireNonEmpty`'s failure condition (main.ts lines 30-34):
`!value || value.trim().length === 0` is equivalent to the trimmed string
being empty. -/
def requireNonEmptyFails (value : String) : Bool :=
  (jsTrim value).data.isEmpty

def isDigits (l : List Char) : Bool :=
  !l.isEmpty && l.all Char.isDigit

def digitsToNat (l : List Char) : Nat :=
  l.foldl (fun a c => a * 10 + (c.toNat - 48)) 0

/-- Outcome of ECMA-262 ToNumber applied to a string: not a numeric
literal at all (NaN), an infinity, or a finite value carried exactly as
a sign, a mantissa and a power-of-ten exponent —
`(if neg then -1 else 1) * mant * 10 ^ exp10` — so that no float
arithmetic is needed to decide integrality. -/
inductive NumValue
  | nan
  | inf
  | finite (neg : Bool) (mant : Nat) (exp10 : Int)
deriving DecidableEq

def decDigitVal? (c : Char) : Option Nat :=
  if c.isDigit then some (c.toNat - 48) else none

def hexDigitVal? (c : Char) : Option Nat :=
  if c.isDigit then some (c.toNat - 48)
  else if 'a' ≤ c ∧ c ≤ 'f' then some (c.toNat - 87)
  else if 'A' ≤ c ∧ c ≤ 'F' then some (c.toNat - 55)
  else none

def octDigitVal? (c : Char) : Option Nat :=
  if '0' ≤ c ∧ c ≤ '7' then some (c.toNat - 48) else none

def binDigitVal? (c : Char) : Option Nat :=
  if c = '0' then some 0 else if c = '1' then some 1 else none

/-- One or more digits of the given base, left to right: their value. -/
def parseDigitsBase (digVal : Char → Option Nat) (base : Nat) (l : List Char) : Option Nat :=
  if l.isEmpty then none
  else
    l.foldl (fun acc c =>
      match acc, digVal c with
      | some a, some d => some (a * base + d)
      | _, _ => none) (some 0)

/-- ECMA-262 StrUnsignedDecimalLiteral: `Infinity`, or decimal digits
with an optional fraction part and an optional signed decimal exponent
(at least one digit on one side of the dot); returns the exact value. -/
def unsignedDecValue? (l : List Char) : Option NumValue :=
  if l = "Infinity".data then some .inf
  else
    let m := l.takeWhile fun c => !(c == 'e' || c == 'E')
    let r := l.dropWhile fun c => !(c == 'e' || c == 'E')
    let e? : Option Int :=
      match r with
      | [] => some 0
      | _ :: ex =>
        match ex with
        | '+' :: d => (parseDigitsBase decDigitVal? 10 d).map Int.ofNat
        | '-' :: d => (parseDigitsBase decDigitVal? 10 d).map fun n => -(Int.ofNat n)
        | d => (parseDigitsBase decDigitVal? 10 d).map Int.ofNat
    let mant? : Option (Nat × Nat) :=
      let a := m.takeWhile fun c => !(c == '.')
      let rb := m.dropWhile fun c => !(c == '.')
      match rb with
      | [] => (parseDigitsBase decDigitVal? 10 a).map fun av => (av, 0)
      | _ :: b =>
        if a.all Char.isDigit && b.all Char.isDigit && !(a.isEmpty && b.isEmpty) then
          some (digitsToNat a * 10 ^ b.length + digitsToNat b, b.length)
        else none
    match mant?, e? with
    | some (mant, fracLen), some e => some (.finite false mant (e - fracLen))
    | _, _ => none

def NumValue.neg : NumValue → NumValue
  | .finite _ mant exp10 => .finite true mant exp10
  | v => v

/-- ECMA-262 StrNumericLiteral: an unsigned binary/octal/hex integer
literal, or an optionally signed decimal literal. -/
def numLiteralValue? : List Char → Option NumValue
  | '0' :: 'x' :: rest => (parseDigitsBase hexDigitVal? 16 rest).map fun n => .finite false n 0
  | '0' :: 'X' :: rest => (parseDigitsBase hexDigitVal? 16 rest).map fun n => .finite false n 0
  | '0' :: 'o' :: rest => (parseDigitsBase octDigitVal? 8 rest).map fun n => .finite false n 0
  | '0' :: 'O' :: rest => (parseDigitsBase octDigitVal? 8 rest).map fun n => .finite false n 0
  | '0' :: 'b' :: rest => (parseDigitsBase binDigitVal? 2 rest).map fun n => .finite false n 0
  | '0' :: 'B' :: rest => (parseDigitsBase binDigitVal? 2 rest).map fun n => .finite false n 0
  | '+' :: rest => unsignedDecValue? rest
  | '-' :: rest => (unsignedDecValue? rest).map NumValue.neg
  | l => unsignedDecValue? l

/-- JS `Number(raw)` for a string: trim, map the empty remainder to `0`,
parse the StrNumericLiteral grammar, and yield NaN on anything else.
Values are exact rationals, not yet rounded to float64. -/
def jsStringToNumber (raw : String) : NumValue :=
  let t := (jsTrim raw).data
  if t.isEmpty then .finite false 0 0
  else
    match numLiteralValue? t with
    | some v => v
    | none => .nan

/-- Smallest magnitude at which float64 round-to-nearest-even overflows
to an infinity. -/
def FLOAT64_OVERFLOW : Nat := 2 ^ 1024 - 2 ^ 970

/-- Model of the composite `Number(raw)` / `Number.isFinite` /
`Number.isInteger` test inside `parseInteger` (main.ts lines 44-50):
`some v` when `parseInteger` returns `v`, `none` when it throws.  NaN
and the infinities throw; a finite literal value at or beyond the
float64 overflow threshold rounds to an infinity and throws; one whose
magnitude is at most `2^(-1075)` underflows to `0`, an integer; an
exact integer succeeds and an exact non-integer throws.  Float64
rounding of other finite values is not modelled: in JS an integer
literal of magnitude `2^53` or more keeps only its rounded value, and a
non-integer within rounding distance of an integer parses; no theorem
in this file evaluates the model at such inputs. -/
def jsNumber (raw : String) : Option Int :=
  match jsStringToNumber raw with
  | .finite neg mant exp10 =>
    if 0 ≤ exp10 then
      let n := mant * 10 ^ exp10.toNat
      if n < FLOAT64_OVERFLOW then some (if neg then -(n : Int) else (n : Int)) else none
    else
      let d := 10 ^ (-exp10).toNat
      if mant % d = 0 then
        let n := mant / d
        if n < FLOAT64_OVERFLOW then some (if neg then -(n : Int) else (n : Int)) else none
      else if mant * 2 ^ 1075 ≤ d then some 0
      else none
  | _ => none

/-- `parseInteger` (main.ts lines 44-50): returns the integer or throws. -/
def parseInteger (name raw : String) : Except String Int :=
  match jsNumber raw with
  | some v => .ok v
  | none => .error ("Invalid " ++ name ++ ": expected integer, got \"" ++ raw ++ "\"")

/-! ## URL building (main.ts lines 26-28, 60-80) -/

/-- `normalizeBaseUrl` (main.ts line 26): `url.endsWith("/") ?
url.slice(0, -1) : url`, expressed on the character list. -/
def normalizeBaseUrl (url : String) : String :=
  if url.data.getLast? = some '/' then String.mk url.data.dropLast else url

/-- Decimal digits of `n` (most significant first); the first argument is
fuel, always called with fuel `≥` the number of digits. -/
def natDigitsAux : Nat → Nat → List Char
  | 0, _ => []
  | fuel + 1, n =>
    if n = 0 then []
    else natDigitsAux fuel (n / 10) ++ [Char.ofNat (48 + n % 10)]

/-- JS `String(n)` for a non-negative integer. -/
def natToStr (n : Nat) : String :=
  if n = 0 then "0" else String.mk (natDigitsAux n n)

/-- JS `String(v)` for an integer (`String(initializer)` / `String(value)`
in main.ts lines 73 and 76). -/
def intToStr : Int → String
  | .ofNat n => natToStr n
  | .negSucc m => "-" ++ natToStr (m + 1)

/-- Characters that JS `encodeURIComponent` leaves unescaped. -/
def uriUnreserved (c : Char) : Bool :=
  c.isAlphanum || c == '-' || c == '_' || c == '.' || c == '!' || c == '~' ||
  c == '*' || c == Char.ofNat 39 || c == '(' || c == ')'

def hexDigitChar (n : Nat) : Char :=
  if n < 10 then Char.ofNat (48 + n) else Char.ofNat (55 + n)

def pctByte (b : Nat) : String :=
  "%" ++ String.singleton (hexDigitChar (b / 16)) ++ String.singleton (hexDigitChar (b % 16))

/-- UTF-8 bytes of a scalar value (JS `encodeURIComponent` escapes by
UTF-8 byte; Lean `Char` excludes the lone surrogates that make it throw). -/
def utf8Bytes (c : Char) : List Nat :=
  let n := c.toNat
  if n < 0x80 then [n]
  else if n < 0x800 then [0xC0 + n / 0x40, 0x80 + n % 0x40]
  else if n < 0x10000 then [0xE0 + n / 0x1000, 0x80 + (n / 0x40) % 0x40, 0x80 + n % 0x40]
  else [0xF0 + n / 0x40000, 0x80 + (n / 0x1000) % 0x40, 0x80 + (n / 0x40) % 0x40, 0x80 + n % 0x40]

def encChar (c : Char) : String :=
  if uriUnreserved c then String.singleton c
  else String.join ((utf8Bytes c).map pctByte)

def encodeChars : List Char → String
  | [] => ""
  | c :: cs => encChar c ++ encodeChars cs

/-- JS `encodeURIComponent`. -/
def encodeURIComponent (s : String) : String :=
  encodeChars s.data

/-- Serialization of the `URLSearchParams` accumulated by `buildUrl`
(`url.toString()`): empty list contributes nothing, otherwise
`?k=v&k=v…`.  The only values set are `String(initializer)` /
`String(value)` of integers, on which form-urlencoding is the identity. -/
def renderParams : List (String × String) → String
  | [] => ""
  | [(k, v)] => k ++ "=" ++ v
  | (k, v) :: p :: ps => k ++ "=" ++ v ++ "&" ++ renderParams (p :: ps)

def renderQuery (ps : List (String × String)) : String :=
  if ps.isEmpty then "" else "?" ++ renderParams ps

/-- `buildUrl` (main.ts lines 60-80) on the runtime operation string.
The model concatenates the pieces directly, leaving out the
`new URL(base + path).toString()` round trip of main.ts line 70, which
collapses `.`/`..` dot segments, percent-encodes characters outside the
URL path-safe set, and treats `?` as the start of a query.  The
concatenation coincides with that serialization exactly when every path
segment consists of name-class characters and is not `.` or `..`; the
theorems below only state the produced URL under those conditions
(enumeration members and `NAME_RE`-valid names always satisfy them). -/
def buildUrlStr (op ns key : String) (initializer value : Option Int) : String :=
  let base := normalizeBaseUrl BASE_URL
  let path := "/" ++ op ++ "/" ++ encodeURIComponent ns ++ "/" ++ encodeURIComponent key
  let params : List (String × String) :=
    (if op = "create" then
      match initializer with
      | some i => [("initializer", intToStr i)]
      | none => []
    else []) ++
    (if op = "set" ∨ op = "update" then
      match value with
      | some v => [("value", intToStr v)]
      | none => []
    else [])
  base ++ path ++ renderQuery params

/-- `buildUrl` restricted to the closed enumeration. -/
def buildUrl (op : Operation) (ns key : String) (initializer value : Option Int) : String :=
  buildUrlStr op.toStr ns key initializer value

/-- The URL builder as §4.2 and §6 of the spec word it: a fixed base
endpoint, the path `/{operation}/{namespace}/{key}` with namespace and
key percent-encoded, an `initializer` query parameter only for `create`
and a `value` query parameter only for `set`/`update`. -/
def buildUrlSpec (op : Operation) (ns key : String) (initializer value : Option Int) : String :=
  "https://abacus.jasoncameron.dev" ++ "/" ++ op.toStr ++ "/" ++
    encodeURIComponent ns ++ "/" ++ encodeURIComponent key ++
  (if op = .create then
    match initializer with
    | some i => "?initializer=" ++ intToStr i
    | none => ""
  else "") ++
  (if op = .set ∨ op = .update then
    match value with
    | some v => "?value=" ++ intToStr v
    | none => ""
  else "")

/-! ## Resilient request executor (main.ts lines 109-200) -/

/-- The parts of a `fetch` `Response` the executor inspects: the status
code, the `Retry-After` header (`headers.get` returns `null`, here
`none`, when absent), and the body text. -/
structure HttpResponse where
  status : Nat
  retryAfter : Option String
  body : String
deriving DecidableEq, Repr

/-- One scripted outcome of `await fetch(...)`: either a response or a
thrown transport error carrying its message. -/
inductive FetchOutcome
  | success (res : HttpResponse)
  | failure (err : String)
deriving DecidableEq, Repr

/-- How a run of `requestWithRetries` ends. -/
inductive RetryOutcome
  /-- `return res`: the response handed back to the caller. -/
  | response (res : HttpResponse)
  /-- `throw err` after attempts are exhausted. -/
  | thrown (err : String)
  /-- Model artifact: the scripted outcome list was shorter than the
  number of attempts the code makes (never reached in the theorems). -/
  | outOfScript
deriving DecidableEq, Repr

/-- Observable trace of a run: how many attempts were made, the argument
of every `sleep`, in order, and the final outcome. -/
structure RetryResult where
  attempts : Nat
  waits : List Nat
  outcome : RetryOutcome
deriving DecidableEq, Repr

/-- The `while (true)` loop of `requestWithRetries` (main.ts lines
137-199).  `a` is the attempt counter before the `attempt += 1` at the
top of the iteration, `backoffMs` the current backoff, `ws` the sleeps
recorded so far.  A malformed `Retry-After` makes `parseInteger` throw
inside the `try` block, so control transfers to the `catch` branch with
the malformed-input error as `err`.  Reading the body only feeds the
debug log (its own `try`/`catch` swallows failures), so it does not
appear in the trace. -/
def requestLoop : List FetchOutcome → Nat → Nat → List Nat → RetryResult
  | [], a, _, ws => ⟨a, ws, .outOfScript⟩
  | o :: rest, a, backoffMs, ws =>
    let attempt := a + 1
    -- the catch block (main.ts lines 187-198)
    let onCaught (err : String) : RetryResult :=
      if attempt ≥ MAX_ATTEMPTS then ⟨attempt, ws, .thrown err⟩
      else requestLoop rest attempt (min (backoffMs * 2) 8000) (ws ++ [backoffMs])
    match o with
    | .failure err => onCaught err
    | .success res =>
      if res.status = 429 ∧ attempt < MAX_ATTEMPTS then
        -- `ra ? Math.max(0, parseInteger("Retry-After", ra)) : backoffMs`;
        -- a present but empty header string is falsy, like `null`.
        match res.retryAfter with
        | some ra =>
          if ra.data.isEmpty then
            requestLoop rest attempt (min (backoffMs * 2) 8000) (ws ++ [backoffMs])
          else
            match jsNumber ra with
            | some v =>
              requestLoop rest attempt (min (backoffMs * 2) 8000) (ws ++ [(max 0 v).toNat])
            | none =>
              onCaught ("Invalid Retry-After: expected integer, got \"" ++ ra ++ "\"")
        | none =>
          requestLoop rest attempt (min (backoffMs * 2) 8000) (ws ++ [backoffMs])
      else if 500 ≤ res.status ∧ res.status ≤ 599 ∧ attempt < MAX_ATTEMPTS then
        requestLoop rest attempt (min (backoffMs * 2) 8000) (ws ++ [backoffMs])
      else
        ⟨attempt, ws, .response res⟩

/-- `requestWithRetries` (main.ts lines 126-200), with `fetch` replaced by
the scripted outcome list: `attempt = 0`, `backoffMs = 500` initially. -/
def requestWithRetries (outcomes : List FetchOutcome) : RetryResult :=
  requestLoop outcomes 0 500 []

/-! ## Redacting logger (main.ts lines 82-107) -/

/-!
`JsonValue` models JS values as seen by `JSON.stringify`: strings,
(integer) numbers, booleans, `null`, objects and arrays.  Mutual
inductives keep the serializer structurally recursive.
-/
mutual
inductive JsonValue
  | str (s : String)
  | num (n : Int)
  | bool (b : Bool)
  | null
  | obj (fields : JsonFields)
  | arr (elems : JsonElems)
inductive JsonFields
  | nil
  | cons (k : String) (v : JsonValue) (rest : JsonFields)
inductive JsonElems
  | nil
  | cons (v : JsonValue) (rest : JsonElems)
end

/-- `redactKeys` (main.ts line 88): note the exact spellings. -/
def redactKeys : List String := ["admin_key", "authorization", "Authorization"]

/-- The replacer passed to `JSON.stringify` (main.ts lines 97-100):
`if (redactKeys.has(k)) return "***"; return v`. -/
def applyReplacer (k : String) (v : JsonValue) : JsonValue :=
  if redactKeys.contains k then .str "***" else v

def hexLower (n : Nat) : Char :=
  if n < 10 then Char.ofNat (48 + n) else Char.ofNat (87 + n)

/-- One character of a JSON string literal, escaped as `JSON.stringify`
escapes it. -/
def jsonEscapeChar (c : Char) : String :=
  if c = '"' then "\\\""
  else if c = '\\' then "\\\\"
  else if c = Char.ofNat 8 then "\\b"
  else if c = Char.ofNat 12 then "\\f"
  else if c = '\n' then "\\n"
  else if c = '\r' then "\\r"
  else if c = '\t' then "\\t"
  else if c.toNat < 32 then
    "\\u00" ++ String.singleton (hexLower (c.toNat / 16)) ++ String.singleton (hexLower (c.toNat % 16))
  else String.singleton c

def jsonEscapeChars : List Char → String
  | [] => ""
  | c :: cs => jsonEscapeChar c ++ jsonEscapeChars cs

/-- A JSON string literal as `JSON.stringify` renders it. -/
def quoteJsonString (s : String) : String :=
  "\"" ++ jsonEscapeChars s.data ++ "\""

/-!
`stringifyVal` / `stringifyFields` / `stringifyElems` implement
`JSON.stringify(input, replacer, 2)` (main.ts lines 95-102) following
ECMA-262 SerializeJSONProperty / SerializeJSONObject /
SerializeJSONArray with gap `"  "`; `ind` is the current indentation.
Every property or element value passes through the replacer keyed by its
property name or index first; since the replacer returns either the
constant `"***"` or the value unchanged, that composition is written
`if redactKeys.contains k then quoteJsonString "***" else stringifyVal
ind v` (which equals `stringifyVal ind (applyReplacer k v)`, proved in
`stringifyVal_applyReplacer` below) to keep the recursion structural.
-/
mutual
def stringifyVal (ind : String) : JsonValue → String
  | .str s => quoteJsonString s
  | .num n => intToStr n
  | .bool b => if b then "true" else "false"
  | .null => "null"
  | .obj .nil => "\x7b\x7d"
  | .obj (.cons k v fs) => "\x7b\n" ++ stringifyFields (ind ++ "  ") (.cons k v fs) ++ "\n" ++ ind ++ "\x7d"
  | .arr .nil => "[]"
  | .arr (.cons v es) => "[\n" ++ stringifyElems (ind ++ "  ") 0 (.cons v es) ++ "\n" ++ ind ++ "]"

def stringifyFields (ind : String) : JsonFields → String
  | .nil => ""
  | .cons k v .nil =>
    ind ++ quoteJsonString k ++ ": " ++
    (if redactKeys.contains k then quoteJsonString "***" else stringifyVal ind v)
  | .cons k v (.cons k2 v2 fs) =>
    ind ++ quoteJsonString k ++ ": " ++
    (if redactKeys.contains k then quoteJsonString "***" else stringifyVal ind v) ++ ",\n" ++
    stringifyFields ind (.cons k2 v2 fs)

def stringifyElems (ind : String) (i : Nat) : JsonElems → String
  | .nil => ""
  | .cons v .nil =>
    ind ++ (if redactKeys.contains (natToStr i) then quoteJsonString "***" else stringifyVal ind v)
  | .cons v (.cons v2 es) =>
    ind ++ (if redactKeys.contains (natToStr i) then quoteJsonString "***" else stringifyVal ind v) ++
    ",\n" ++ stringifyElems ind (i + 1) (.cons v2 es)
end

/-- The whole `JSON.stringify(input, replacer, 2)` call: the replacer is
applied to the root value under the key `""` first. -/
def jsonStringify (v : JsonValue) : String :=
  stringifyVal "" (applyReplacer "" v)

/-- `truncate` (main.ts lines 82-85). -/
def truncate (s : String) (max : Nat) : String :=
  if s.data.length ≤ max then s
  else String.mk (s.data.take max) ++ "… [truncated " ++ natToStr (s.data.length - max) ++ " chars]"

/-- The argument of `sanitizeForLogs`: a string or a structured value. -/
inductive LogInput
  | ofString (s : String)
  | ofJson (v : JsonValue)

/-- `sanitizeForLogs` (main.ts lines 87-107).  The `try`/`catch` around
`JSON.stringify` only fires on circular structures, which `JsonValue`
cannot express, so the model is the success path. -/
def sanitizeForLogs : LogInput → String
  | .ofString s => truncate s MAX_LOG_BODY_CHARS
  | .ofJson v => truncate (jsonStringify v) MAX_LOG_BODY_CHARS

/-- `needle` occurs as a contiguous substring of `hay`. -/
def containsSub (hay needle : String) : Bool :=
  (List.range (hay.data.length + 1)).any fun i => needle.data.isPrefixOf (hay.data.drop i)

/-! ## Response interpretation (main.ts lines 202-216, 284-294) -/

def lookupField : JsonFields → String → Option JsonValue
  | .nil, _ => none
  | .cons k v rest, key => if k = key then some v else lookupField rest key

/-- JS `payload?.error`-style access: a named property when the payload
is an object, `undefined` (here `none`) otherwise. -/
def payloadField (payload : JsonValue) (key : String) : Option JsonValue :=
  match payload with
  | .obj fs => lookupField fs key
  | _ => none

/-- `readJsonSafely` (main.ts lines 202-211).  `JSON.parse` is a platform
builtin, so it enters the model as the parameter `jsonParse`, `none`
standing for a thrown `SyntaxError`; the function only depends on whether
parsing succeeds. -/
def readJsonSafely (jsonParse : String → Option JsonValue) (rawText : String) :
    String × JsonValue :=
  if rawText.data.isEmpty then ("", .obj .nil)
  else
    match jsonParse rawText with
    | some j => (rawText, j)
    | none => (rawText, .obj (.cons "error" (.str rawText) .nil))

/-- JS `Response.ok`: status in the 2xx range. -/
def resOk (status : Nat) : Bool :=
  200 ≤ status && status ≤ 299

/-- The response-interpretation step of `run` (main.ts lines 284-294):
read the body via `readJsonSafely`, then either hand the payload on
(2xx) or throw the error message built from the payload's `error` field
or the status code. -/
def interpretResponse (jsonParse : String → Option JsonValue) (operation : String)
    (status : Nat) (body : String) : Except String JsonValue :=
  let p := readJsonSafely jsonParse body
  if resOk status then .ok p.2
  else
    let errMsg :=
      match payloadField p.2 "error" with
      | some (.str s) => s
      | _ => "Request failed with status " ++ natToStr status
    .error (errMsg ++ " (operation=" ++ operation ++ ")")

/-! ## run: validation and request construction (main.ts lines 243-283) -/

/-- The action's inputs as returned by `core.getInput`: `""` models an
absent input. -/
structure Inputs where
  operation : String
  namespace_ : String
  key : String
  initializer : String
  value : String
  admin_key : String
deriving Repr

/-- The HTTP exchange `run` hands to `requestWithRetries`: URL, method,
and the headers built in main.ts lines 276-281. -/
structure Request where
  url : String
  method : HttpMethod
  accept : String
  authorization : Option String
deriving DecidableEq, Repr

/-- `core.getInput("operation") || "hit"` (main.ts line 244): the
absent/empty input defaults to `hit`. -/
def effectiveOp (inp : Inputs) : String :=
  if inp.operation.data.isEmpty then "hit" else inp.operation

/-- The validation and request-construction part of `run` (main.ts lines
243-283), up to the `requestWithRetries` call: either a thrown validation
error or the request that is dispatched.  The TypeScript
`operationRaw as Operation` cast checks nothing, so `operation` stays a
plain string. -/
def run (inp : Inputs) : Except String Request :=
  let operation := effectiveOp inp
  if requireNonEmptyFails inp.namespace_ then .error "Missing required input: namespace"
  else if requireNonEmptyFails inp.key then .error "Missing required input: key"
  else if !validName inp.namespace_ then
    .error ("Invalid namespace: must match ^[A-Za-z0-9_-.]\x7b3,64\x7d$ (got \"" ++ inp.namespace_ ++ "\")")
  else if !validName inp.key then
    .error ("Invalid key: must match ^[A-Za-z0-9_-.]\x7b3,64\x7d$ (got \"" ++ inp.key ++ "\")")
  else
    let initializerRaw := if inp.initializer.data.isEmpty then "0" else inp.initializer
    let valueRaw := inp.value
    let adminKey := inp.admin_key
    if isAdminOpStr operation && requireNonEmptyFails adminKey then
      .error "Missing required input: admin_key"
    else if (operation = "set" ∨ operation = "update") ∧ requireNonEmptyFails valueRaw then
      .error ("Missing required input: value (required for operation=" ++ operation ++ ")")
    else
      match (if operation = "create" then (parseInteger "initializer" initializerRaw).map some
             else .ok none : Except String (Option Int)) with
      | .error e => .error e
      | .ok initializer =>
        match (if operation = "set" ∨ operation = "update" then (parseInteger "value" valueRaw).map some
               else .ok none : Except String (Option Int)) with
        | .error e => .error e
        | .ok value =>
          .ok { url := buildUrlStr operation inp.namespace_ inp.key initializer value
                method := methodForStr operation
                accept := "application/json"
                authorization := if isAdminOpStr operation then some ("Bearer " ++ adminKey) else none }

deriving instance DecidableEq for Except

/-! ## Claims about the resilient request executor -/

/-- C1: for the response sequence [429 with Retry-After=2, 429 with no
Retry-After header, 200], the executor sleeps 2 time units after the
first attempt, then the current backoff duration (1000, the initial 500
doubled once, written `min (500 * 2) 8000` as the code computes it)
after the second attempt, and returns the 200 response after exactly 3
attempts. -/
theorem C1_retry_after_sequence (b1 b2 b3 : String) (ra3 : Option String) :
    requestWithRetries
        [.success ⟨429, some "2", b1⟩, .success ⟨429, none, b2⟩, .success ⟨200, ra3, b3⟩] =
      ⟨3, [2, min (500 * 2) 8000], .response ⟨200, ra3, b3⟩⟩ := by
  rfl

/-- C1 witness: the theorem at concrete bodies. -/
theorem C1_retry_after_sequence_witness :
    requestWithRetries
        [.success ⟨429, some "2", "slow down"⟩, .success ⟨429, none, ""⟩, .success ⟨200, none, "ok"⟩] =
      ⟨3, [2, min (500 * 2) 8000], .response ⟨200, none, "ok"⟩⟩ :=
  C1_retry_after_sequence "slow down" "" "ok" none

/-- C2: for 5 consecutive 503 responses the executor makes exactly 5
attempts, sleeping the current backoff (500, then doubled after each
retry: 1000, 2000, 4000) between attempts, and returns the final 503
response itself, not a transport error. -/
theorem C2_five_503_responses (b1 b2 b3 b4 b5 : String) (r1 r2 r3 r4 r5 : Option String) :
    requestWithRetries
        [.success ⟨503, r1, b1⟩, .success ⟨503, r2, b2⟩, .success ⟨503, r3, b3⟩,
         .success ⟨503, r4, b4⟩, .success ⟨503, r5, b5⟩] =
      ⟨5, [500, 1000, 2000, 4000], .response ⟨503, r5, b5⟩⟩ := by
  rfl

/-- C3: when every attempt fails at the transport level, the executor
makes exactly 5 attempts and then throws the transport error of the
final attempt itself, not an HTTP-status error. -/
theorem C3_transport_failure_every_attempt (e1 e2 e3 e4 e5 : String) :
    requestWithRetries [.failure e1, .failure e2, .failure e3, .failure e4, .failure e5] =
      ⟨5, [500, 1000, 2000, 4000], .thrown e5⟩ := by
  rfl

theorem stringifyVal_applyReplacer (ind k : String) (v : JsonValue) :
    stringifyVal ind (applyReplacer k v) =
      (if redactKeys.contains k then quoteJsonString "***" else stringifyVal ind v) := by
  by_cases h : k ∈ redactKeys <;> simp [applyReplacer, h, stringifyVal]

/-- C5 counterexample: the field name "ADMIN_KEY" matches "admin_key"
case-insensitively, yet logging a structured value containing
`(ADMIN_KEY: "abc123")` emits the secret in clear and no mask token:
redaction is by exact, case-sensitive match. -/
theorem C5_counterexample :
    "ADMIN_KEY".data.map Char.toLower = "admin_key".data ∧
    containsSub (sanitizeForLogs (.ofJson (.obj (.cons "ADMIN_KEY" (.str "abc123") .nil)))) "abc123" = true ∧
    containsSub (sanitizeForLogs (.ofJson (.obj (.cons "ADMIN_KEY" (.str "abc123") .nil)))) "***" = false := by
  decide

/-- C5 (amended): any field whose name matches `admin_key`,
`authorization` or `Authorization` exactly (case-sensitively — those are
the only spellings in `redactKeys`) has its value replaced by the mask
token `"***"` whatever the value is; in particular logging the
structured value (admin_key: "abc123", value: 7) yields output that
never contains "abc123" and contains "***" instead. -/
theorem C5_exact_match_redaction :
    (∀ (ind k : String) (v : JsonValue),
        (k = "admin_key" ∨ k = "authorization" ∨ k = "Authorization") →
        stringifyVal ind (applyReplacer k v) = "\"***\"") ∧
    containsSub
        (sanitizeForLogs (.ofJson (.obj (.cons "admin_key" (.str "abc123") (.cons "value" (.num 7) .nil)))))
        "abc123" = false ∧
    containsSub
        (sanitizeForLogs (.ofJson (.obj (.cons "admin_key" (.str "abc123") (.cons "value" (.num 7) .nil)))))
        "***" = true := by
  refine ⟨?_, by decide, by decide⟩
  intro ind k v hk
  have hc : redactKeys.contains k = true := by
    rcases hk with rfl | rfl | rfl <;> decide
  rw [stringifyVal_applyReplacer, if_pos hc]
  decide

/-- C5 witness: the amended theorem applied at the field name
`admin_key` and a string value. -/
theorem C5_exact_match_redaction_witness :
    stringifyVal "" (applyReplacer "admin_key" (.str "abc123")) = "\"***\"" :=
  C5_exact_match_redaction.1 "" "admin_key" (.str "abc123") (Or.inl rfl)

/-! ## Claims about the URL builder -/

theorem strData_append (a b : String) : (a ++ b).data = a.data ++ b.data := rfl

theorem nameChar_unreserved {c : Char} (h : nameChar c = true) : uriUnreserved c = true := by
  simp only [nameChar, Bool.or_eq_true, beq_iff_eq] at h
  rcases h with ((h | rfl) | rfl) | rfl
  · simp [uriUnreserved, h]
  all_goals decide

theorem encodeChars_id {l : List Char} (h : ∀ c ∈ l, nameChar c = true) :
    encodeChars l = String.mk l := by
  induction l with
  | nil => rfl
  | cons c cs ih =>
    have hc : uriUnreserved c = true := nameChar_unreserved (h c (List.mem_cons_self c cs))
    have ih' := ih fun d hd => h d (List.mem_cons_of_mem c hd)
    rw [encodeChars, encChar, if_pos hc, ih']
    rfl

/-- Every character accepted by `NAME_RE` is left unescaped by
`encodeURIComponent`, so on valid names percent-encoding is the
identity. -/
theorem encodeURIComponent_validName {s : String} (h : validName s = true) :
    encodeURIComponent s = s := by
  have hall : ∀ c ∈ s.data, nameChar c = true := by
    simp only [validName, Bool.and_eq_true, List.all_eq_true, decide_eq_true_eq] at h
    exact h.2
  rw [encodeURIComponent, encodeChars_id hall]

theorem nameChars_no_qmark {l : List Char} (h : ∀ c ∈ l, nameChar c = true) : '?' ∉ l :=
  fun hin => absurd (h _ hin) (by decide)

theorem validName_all_nameChar {s : String} (h : validName s = true) :
    ∀ c ∈ s.data, nameChar c = true := by
  simp only [validName, Bool.and_eq_true, List.all_eq_true, decide_eq_true_eq] at h
  exact h.2

theorem normalizeBaseUrl_fixed : normalizeBaseUrl BASE_URL = BASE_URL := by decide

/-- C8: for every operation and valid (namespace, key) pair the builder
produces exactly the base endpoint followed by
`/{operation}/{namespace}/{key}` with the two segments percent-encoded
(the identity on valid names), attaching `initializer` only for create
and `value` only for set/update, and a `hit` URL contains no `?` at all.
Determinism under identical inputs is definitional: `buildUrl` is a pure
function of its arguments. -/
theorem C8_buildUrl_matches_spec (op : Operation) (ns key : String) (initializer value : Option Int)
    (hns : validName ns = true) (hk : validName key = true) :
    buildUrl op ns key initializer value = buildUrlSpec op ns key initializer value ∧
    encodeURIComponent ns = ns ∧ encodeURIComponent key = key ∧
    '?' ∉ (buildUrl .hit ns key initializer value).data := by
  have hens := encodeURIComponent_validName hns
  have hekey := encodeURIComponent_validName hk
  have hnsq : '?' ∉ ns.data := nameChars_no_qmark (validName_all_nameChar hns)
  have hkq : '?' ∉ key.data := nameChars_no_qmark (validName_all_nameChar hk)
  have hEq : ∀ o i v, buildUrl o ns key i v = buildUrlSpec o ns key i v := by
    intro o i v
    cases o <;> cases i <;> cases v <;>
      simp [buildUrl, buildUrlStr, buildUrlSpec, Operation.toStr, renderQuery, renderParams,
        normalizeBaseUrl_fixed, String.append_assoc] <;>
      rfl
  refine ⟨hEq op initializer value, hens, hekey, ?_⟩
  have hhit : buildUrl .hit ns key initializer value =
      "https://abacus.jasoncameron.dev/hit/" ++ (ns ++ ("/" ++ key)) := by
    rw [hEq]
    simp [buildUrlSpec, Operation.toStr, hens, hekey, String.append_assoc]
    try rfl
  rw [hhit]
  intro hin
  rw [show ("https://abacus.jasoncameron.dev/hit/" ++ (ns ++ ("/" ++ key))).data =
      "https://abacus.jasoncameron.dev/hit/".data ++ (ns.data ++ ("/".data ++ key.data)) from rfl] at hin
  simp only [List.mem_append] at hin
  rcases hin with h | h | h | h
  · exact absurd h (by decide)
  · exact hnsq h
  · exact absurd h (by decide)
  · exact hkq h

/-- C8 witness: the theorem at `create` with `my-org`/`build-api` and
initializer 5, plus its `hit` no-query part. -/
theorem C8_buildUrl_matches_spec_witness :
    validName "my-org" = true ∧ validName "build-api" = true ∧
    buildUrl .create "my-org" "build-api" (some 5) none =
      buildUrlSpec .create "my-org" "build-api" (some 5) none :=
  ⟨by decide, by decide,
    (C8_buildUrl_matches_spec .create "my-org" "build-api" (some 5) none (by decide) (by decide)).1⟩

/-! ## Claims about run: validation, dispatch, defaults -/

theorem parseOperation_ne {s : String} (h : parseOperation s = none) :
    s ≠ "hit" ∧ s ≠ "create" ∧ s ≠ "get" ∧ s ≠ "info" ∧
    s ≠ "set" ∧ s ≠ "update" ∧ s ≠ "reset" ∧ s ≠ "delete" := by
  refine ⟨?_, ?_, ?_, ?_, ?_, ?_, ?_, ?_⟩ <;> rintro rfl <;> exact absurd h (by decide)

theorem nameChar_not_ws {c : Char} (h : nameChar c = true) : c.isWhitespace = false := by
  by_contra hw
  rw [Bool.not_eq_false] at hw
  simp [Char.isWhitespace] at hw
  rcases hw with ((rfl | rfl) | rfl) | rfl <;> exact absurd h (by decide)

theorem dropWhile_ws_id {l : List Char} (h : ∀ c ∈ l, nameChar c = true) :
    l.dropWhile Char.isWhitespace = l := by
  cases l with
  | nil => rfl
  | cons c cs =>
    rw [List.dropWhile_cons]
    simp [nameChar_not_ws (h c (List.mem_cons_self c cs))]

/-- A name accepted by `NAME_RE` contains no whitespace and at least 3
characters, so `requireNonEmpty` cannot fail on it. -/
theorem validName_not_empty {s : String} (h : validName s = true) :
    requireNonEmptyFails s = false := by
  have hall := validName_all_nameChar h
  have hlen : 3 ≤ s.data.length := by
    simp only [validName, Bool.and_eq_true, decide_eq_true_eq] at h
    exact h.1.1
  unfold requireNonEmptyFails jsTrim
  rw [dropWhile_ws_id hall,
    dropWhile_ws_id (fun c hc => hall c (List.mem_reverse.mp hc)),
    List.reverse_reverse]
  show s.data.isEmpty = false
  rcases hl : s.data with _ | ⟨a, l⟩
  · rw [hl] at hlen; exact absurd hlen (by decide)
  · rfl

/-- C9: whenever `run` reaches the dispatch point (returns a request
instead of throwing a validation error), the namespace and key have
passed the 3-64 pattern, an admin operation has a non-empty admin
credential, and a set/update has a value that parsed as an integer;
contrapositively, inputs failing any of these abort before any network
call, since `requestWithRetries` is only ever applied to `run`'s
result. -/
theorem C9_validated_before_dispatch (inp : Inputs) (req : Request)
    (h : run inp = .ok req) :
    validName inp.namespace_ = true ∧ validName inp.key = true ∧
    (isAdminOpStr (effectiveOp inp) = true → requireNonEmptyFails inp.admin_key = false) ∧
    ((effectiveOp inp = "set" ∨ effectiveOp inp = "update") →
      ∃ v : Int, jsNumber inp.value = some v) := by
  simp only [run] at h
  split at h
  · exact Except.noConfusion h
  split at h
  · exact Except.noConfusion h
  split at h
  · exact Except.noConfusion h
  next hvns =>
  split at h
  · exact Except.noConfusion h
  next hvk =>
  split at h
  · exact Except.noConfusion h
  next hadm =>
  split at h
  · exact Except.noConfusion h
  next hval =>
  split at h
  next heqi => exact Except.noConfusion h
  next initializer heqi =>
  split at h
  next heqv => exact Except.noConfusion h
  next value heqv =>
  refine ⟨by simpa using hvns, by simpa using hvk, ?_, ?_⟩
  · intro hadmin
    by_contra hne
    rw [Bool.not_eq_false] at hne
    exact hadm (by simp [hadmin, hne])
  · intro hsu
    rw [if_pos hsu] at heqv
    cases hjs : jsNumber inp.value with
    | some v => exact ⟨v, rfl⟩
    | none =>
      rw [parseInteger] at heqv
      rw [hjs] at heqv
      exact Except.noConfusion heqv

/-- C9 witness: a `set` invocation with valid names, a value and an
admin key reaches dispatch, and the theorem's guarantees hold there. -/
theorem C9_validated_before_dispatch_witness :
    run ⟨"set", "myns", "mykey", "", "5", "tok"⟩ =
      .ok ⟨"https://abacus.jasoncameron.dev/set/myns/mykey?value=5", .POST, "application/json",
        some "Bearer tok"⟩ ∧
    (validName "myns" = true ∧ validName "mykey" = true ∧
      (isAdminOpStr (effectiveOp ⟨"set", "myns", "mykey", "", "5", "tok"⟩) = true →
        requireNonEmptyFails "tok" = false) ∧
      ((effectiveOp ⟨"set", "myns", "mykey", "", "5", "tok"⟩ = "set" ∨
        effectiveOp ⟨"set", "myns", "mykey", "", "5", "tok"⟩ = "update") →
        ∃ v : Int, jsNumber "5" = some v)) :=
  ⟨by decide,
    C9_validated_before_dispatch ⟨"set", "myns", "mykey", "", "5", "tok"⟩
      ⟨"https://abacus.jasoncameron.dev/set/myns/mykey?value=5", .POST, "application/json",
        some "Bearer tok"⟩ (by decide)⟩

/-- C6 counterexample: "bogus" is outside the closed operation
enumeration, yet `run` reports no configuration error: it validates the
other inputs and hands `requestWithRetries` a GET request for
`/bogus/{namespace}/{key}`, so an HTTP request is dispatched. -/
theorem C6_counterexample :
    parseOperation "bogus" = none ∧
    run ⟨"bogus", "myns", "mykey", "", "", ""⟩ =
      .ok ⟨"https://abacus.jasoncameron.dev/bogus/myns/mykey", .GET, "application/json", none⟩ := by
  decide

/-- C6 (amended): an operation name outside the closed enumeration is
not rejected — the unchecked cast leaves it a plain string that counts
as non-administrative, so once the namespace and key validate, `run`
always reaches the dispatch point with a GET request carrying no
Authorization header; no configuration error is ever reported for it.
When moreover the operation string consists of name-class characters
and is not one of the dot segments `.` and `..` — so WHATWG URL
serialization is the identity on the resulting path — the dispatched
URL is exactly `{base}/{operation}/{namespace}/{key}` with no query
parameters. -/
theorem C6_unknown_operation_dispatched (inp : Inputs)
    (hop : parseOperation inp.operation = none)
    (hne : inp.operation.data.isEmpty = false)
    (hns : validName inp.namespace_ = true) (hkey : validName inp.key = true) :
    (∃ req : Request, run inp = .ok req ∧ req.method = .GET ∧ req.authorization = none) ∧
    (inp.operation.data.all nameChar = true → inp.operation ≠ "." → inp.operation ≠ ".." →
      run inp = .ok ⟨BASE_URL ++ "/" ++ inp.operation ++ "/" ++
          encodeURIComponent inp.namespace_ ++ "/" ++ encodeURIComponent inp.key,
        .GET, "application/json", none⟩) := by
  obtain ⟨-, hcreate, -, -, hset, hupdate, hreset, hdelete⟩ := parseOperation_ne hop
  have hop' : effectiveOp inp = inp.operation := by
    simp [effectiveOp, hne]
  have hadmin : isAdminOpStr inp.operation = false := by
    simp [isAdminOpStr, beq_iff_eq, hset, hupdate, hreset, hdelete]
  have hrun : run inp = .ok ⟨BASE_URL ++ "/" ++ inp.operation ++ "/" ++
      encodeURIComponent inp.namespace_ ++ "/" ++ encodeURIComponent inp.key,
    .GET, "application/json", none⟩ := by
    simp [run, hop', validName_not_empty hns, validName_not_empty hkey, hns, hkey, hadmin,
      hcreate, hset, hupdate, methodForStr, buildUrlStr, renderQuery, renderParams,
      normalizeBaseUrl_fixed, String.append_assoc]
  exact ⟨⟨_, hrun, rfl, rfl⟩, fun _ _ _ => hrun⟩

/-- C6 witness: the amended theorem's URL conclusion at the concrete
operation name `bogus` (name-class characters, not a dot segment). -/
theorem C6_unknown_operation_dispatched_witness :
    parseOperation "bogus" = none ∧ "bogus".data.all nameChar = true ∧
    run ⟨"bogus", "myns", "mykey", "", "", ""⟩ =
      .ok ⟨BASE_URL ++ "/" ++ "bogus" ++ "/" ++
          encodeURIComponent "myns" ++ "/" ++ encodeURIComponent "mykey",
        .GET, "application/json", none⟩ :=
  ⟨by decide, by decide,
    (C6_unknown_operation_dispatched ⟨"bogus", "myns", "mykey", "", "", ""⟩
        (by decide) (by decide) (by decide) (by decide)).2
      (by decide) (by decide) (by decide)⟩

/-- C7: a 2xx response whose body is non-empty but fails JSON parsing
does not fail the interpreter: `readJsonSafely` yields a payload whose
`error` field is the raw body text, and since success is decided solely
by the status class, `run`'s interpretation step still returns the
payload as a success; an empty body yields the empty structured
result. -/
theorem C7_nonjson_2xx_success (jsonParse : String → Option JsonValue) (op body : String)
    (status : Nat) (h2xx : resOk status = true) (hne : body.data.isEmpty = false)
    (hbad : jsonParse body = none) :
    readJsonSafely jsonParse body = (body, .obj (.cons "error" (.str body) .nil)) ∧
    interpretResponse jsonParse op status body = .ok (.obj (.cons "error" (.str body) .nil)) ∧
    readJsonSafely jsonParse "" = ("", .obj .nil) := by
  have hne' : body.data ≠ [] := by simpa using hne
  have hread : readJsonSafely jsonParse body = (body, .obj (.cons "error" (.str body) .nil)) := by
    simp [readJsonSafely, hne', hbad]
  exact ⟨hread, by simp [interpretResponse, hread, h2xx], rfl⟩

/-- C7 witness: the theorem at status 200 with the unparseable body
`"not json"` and a parser that rejects it. -/
theorem C7_nonjson_2xx_success_witness :
    resOk 200 = true ∧ "not json".data.isEmpty = false ∧
    interpretResponse (fun _ => none) "hit" 200 "not json" =
      .ok (.obj (.cons "error" (.str "not json") .nil)) :=
  ⟨by decide, by decide,
    (C7_nonjson_2xx_success (fun _ => none) "hit" "not json" 200 (by decide) (by decide) rfl).2.1⟩
